import Mathlib

/-!
# Verification of `rippa.py` (heyjoeway/Pippa)

Shallow embedding of the single-file optical-disc ripping daemon.
Python strings are modelled as `List Char` (top-level entry points take
`String` and use `.data`); Python exceptions as an error type threaded
through `Except`; the two polling threads' side effects as explicit event
traces; the module-level `_mounts` registry as explicitly passed state.
Each definition carries the source line numbers it is translated from.
-/

namespace Rippa

/-- Python exception classes raised by the embedded code paths. -/
inductive PyErr
  | calledProcessError  -- subprocess.CalledProcessError (from check_output, nonzero exit)
  | exceptionExit       -- the plain Exception(exitcode) raised by execute() streaming mode
  | attributeError      -- attribute lookup miss on an object
  | keyError            -- dict subscript miss
  | valueError          -- e.g. int() on a non-numeric string
  | indexError          -- list subscript out of range
  deriving DecidableEq, Repr

/-! ## Python string primitives -/

/-- Python `str.split(sep)` for a nonempty separator: leftmost, non-overlapping,
keeping empty chunks (so the result is never `[]`).  Structured with fuel; each
step consumes at least one character, so fuel = length of the input suffices. -/
def pySplitA (sep : List Char) : Nat → List Char → List (List Char)
  | _, [] => [[]]
  | 0, l => [l]
  | fuel+1, c :: tl =>
    if sep.isPrefixOf (c :: tl) then
      [] :: pySplitA sep fuel ((c :: tl).drop sep.length)
    else
      match pySplitA sep fuel tl with
      | [] => [[c]]
      | chunk :: rest => (c :: chunk) :: rest

/-- Python `str.split(sep)` (nonempty `sep`). -/
def pySplit (sep : List Char) (l : List Char) : List (List Char) :=
  pySplitA sep l.length l

/-- The whitespace class used by Python `str.split()` / `str.strip()`
(ASCII portion; the inputs handled here are ASCII). -/
def isPySpace (c : Char) : Bool :=
  c == ' ' || c == '\t' || c == '\n' || c == '\r' || c == '\x0b' || c == '\x0c'

/-- Python `str.strip()`: drop whitespace from both ends. -/
def pyStrip (l : List Char) : List Char :=
  ((l.dropWhile isPySpace).reverse.dropWhile isPySpace).reverse

/-- Helper for `pySplitWs`: `acc` is the current (reversed) in-progress chunk. -/
def pySplitWsAux : List Char → List Char → List (List Char)
  | acc, [] => if acc.isEmpty then [] else [acc.reverse]
  | acc, c :: tl =>
    if isPySpace c then
      if acc.isEmpty then pySplitWsAux [] tl else acc.reverse :: pySplitWsAux [] tl
    else pySplitWsAux (c :: acc) tl

/-- Python `str.split()` with no separator: split on whitespace runs,
discarding empty chunks. -/
def pySplitWs (l : List Char) : List (List Char) :=
  pySplitWsAux [] l

def isDecDigit (c : Char) : Bool := '0' ≤ c && c ≤ '9'

def digitsVal (l : List Char) : Nat :=
  l.foldl (fun a c => a * 10 + (c.toNat - '0'.toNat)) 0

/-- Python `int(s)` restricted to the whitespace-free fields it is applied to
here (pieces of `str.split()`): optional sign, then ASCII decimal digits,
with single underscores permitted between digit groups; anything else is a
`ValueError`. -/
def pyIntCore (l : List Char) : Option Int :=
  let sd : Int × List Char :=
    match l with
    | '+' :: rest => (1, rest)
    | '-' :: rest => (-1, rest)
    | _ => (1, l)
  if sd.2.isEmpty then none
  else if (pySplit ['_'] sd.2).all (fun p => !p.isEmpty && p.all isDecDigit) then
    some (sd.1 * (digitsVal (sd.2.filter (fun c => !(c == '_'))) : Int))
  else none

def pyInt (l : List Char) : Except PyErr Int :=
  match pyIntCore l with
  | some n => Except.ok n
  | none => Except.error PyErr.valueError

/-! ## CPython `hash` on tuples of ints -/

/-- CPython `hash` of an `int`: reduction modulo the Mersenne prime 2^61 - 1,
sign preserved, with -1 mapped to -2. -/
def pyHashInt (n : Int) : Int :=
  let P : Int := 2 ^ 61 - 1
  let h : Int := if 0 ≤ n then n % P else -((-n) % P)
  if h = -1 then -2 else h

def xxprime1 : Nat := 11400714785074694791
def xxprime2 : Nat := 14029467366897019727
def xxprime5 : Nat := 2870177450012600261

/-- Truncation to 64 bits. -/
def u64 (n : Nat) : Nat := n % 2 ^ 64

/-- Reinterpret a (possibly negative) int hash as an unsigned 64-bit lane. -/
def toU64 (i : Int) : Nat := (i % (2 ^ 64 : Int)).toNat

/-- CPython 3.8+ tuple hash (the xxHash-style combiner from tupleobject.c),
applied to the per-item int hashes; the final 64-bit accumulator is
reinterpreted as a signed value.  (Int item hashes are never -1, so the
per-lane error check in the C source is dead here.) -/
def pyHashTuple (l : List Int) : Int :=
  let acc := l.foldl
    (fun acc i =>
      let lane := toU64 (pyHashInt i)
      let a1 := u64 (acc + lane * xxprime2)
      let a2 := u64 ((a1 <<< 31) ||| (a1 >>> 33))
      u64 (a2 * xxprime1))
    xxprime5
  let acc := u64 (acc + Nat.xor l.length (Nat.xor xxprime5 3527539))
  if acc = 2 ^ 64 - 1 then 1546275796
  else if acc < 2 ^ 63 then (acc : Int)
  else (acc : Int) - 2 ^ 64

/-! ## `cdparanoia_hash` (rippa.py lines 64-74) -/

/-- Python list slice `[6:-2]`. -/
def pySlice6m2 {α : Type} (l : List α) : List α :=
  ((l.drop 6).dropLast).dropLast

/-- The body of the per-line loop of `cdparanoia_hash` (lines 68-73): a line
with exactly 8 whitespace-separated fields contributes `int(split[1])`
(`int()` on a non-numeric field raises `ValueError`); any other line is
skipped. -/
def cdparanoia_line (acc : List Int) (line : List Char) : Except PyErr (List Int) :=
  match pySplitWs line with
  | [_, s1, _, _, _, _, _, _] => do
      let n ← pyInt s1
      pure (acc ++ [n])
  | _ => pure acc

/-- The track-length extraction inside `cdparanoia_hash` (lines 66-73):
split into lines, keep `lines[6:-2]`, and fold `cdparanoia_line`. -/
def cdparanoia_lengths (s : String) : Except PyErr (List Int) :=
  (pySlice6m2 (pySplit ['\n'] s.data)).foldlM cdparanoia_line []

/-- `cdparanoia_hash` (lines 65-74): `hash(tuple(lengths))` of the extracted
track lengths. -/
def cdparanoia_hash (s : String) : Except PyErr Int := do
  let lengths ← cdparanoia_lengths s
  pure (pyHashTuple lengths)

/-! ## `parse_blkid_params` / `parse_blkid` (rippa.py lines 44-62) -/

/-- Python `\w` (ASCII portion; all keys handled here are ASCII). -/
def isWordChar (c : Char) : Bool := c.isAlphanum || c == '_'

/-- One attempt of `re.finditer` with pattern `(\w+)="([^"]+)"` at the current
position: a maximal nonempty word run, then `="`, then a maximal nonempty
run of non-quote characters, then `"`.  (Backtracking cannot produce any
other match at this position: a shorter `\w+` would be followed by a word
character, not `=`, and a shorter `[^"]+` would be followed by a non-quote.) -/
def tryMatch (l : List Char) : Option (List Char × List Char × List Char) :=
  let k := l.takeWhile isWordChar
  if k.isEmpty then none
  else
    match l.drop k.length with
    | '=' :: '\"' :: rest =>
      let v := rest.takeWhile (fun c => !(c == '\"'))
      if v.isEmpty then none
      else
        match rest.drop v.length with
        | '\"' :: rest2 => some (k, v, rest2)
        | _ => none
    | _ => none

/-- `re.finditer`: scan left to right; on a match continue after it, otherwise
advance one character.  Fuel = input length suffices (each step consumes at
least one character). -/
def findIterAux : Nat → List Char → List (List Char × List Char)
  | _, [] => []
  | 0, _ => []
  | fuel+1, c :: tl =>
    match tryMatch (c :: tl) with
    | some (k, v, rest) => (k, v) :: findIterAux fuel rest
    | none => findIterAux fuel tl

def findIter (l : List Char) : List (List Char × List Char) :=
  findIterAux l.length l

/-- Python dict assignment `d[k] = v`: update in place if the key is present
(preserving insertion order), otherwise append. -/
def dictInsert {β : Type} (d : List (List Char × β)) (k : List Char) (v : β) :
    List (List Char × β) :=
  if k ∈ d.map Prod.fst then d.map (fun p => if p.1 = k then (k, v) else p)
  else d ++ [(k, v)]

/-- Python dict subscript `d[k]`: `KeyError` when absent. -/
def dictGet {β : Type} (d : List (List Char × β)) (k : List Char) : Except PyErr β :=
  match d.find? (fun p => decide (p.1 = k)) with
  | some p => Except.ok p.2
  | none => Except.error PyErr.keyError

/-- Python list subscript `l[i]` for natural `i`. -/
def listGet {α : Type} (l : List α) (i : Nat) : Except PyErr α :=
  match l.drop i with
  | a :: _ => Except.ok a
  | [] => Except.error PyErr.indexError

/-- `parse_blkid_params` (lines 44-50): collect all `(\w+)="([^"]+)"` matches
into a dict. -/
def parse_blkid_params (params_str : List Char) : List (List Char × List Char) :=
  (findIter params_str).foldl (fun d kv => dictInsert d kv.1 kv.2) []

/-- The body of the per-line loop of `parse_blkid` (lines 54-61): empty lines
are skipped; otherwise `parts = line.split(": ")`, `blk = parts[0]`,
`params_str = parts[1]` (an `IndexError` if the line has no `": "`), then
`blkid[blk] = parse_blkid_params(params_str)`. -/
def parse_blkid_line (d : List (List Char × List (List Char × List Char)))
    (line : List Char) :
    Except PyErr (List (List Char × List (List Char × List Char))) :=
  if line = [] then pure d
  else do
    let parts := pySplit [':', ' '] line
    let blk ← listGet parts 0
    let params_str ← listGet parts 1
    pure (dictInsert d blk (parse_blkid_params params_str))

/-- `parse_blkid` (lines 52-62): split into lines and fold `parse_blkid_line`
into a dict. -/
def parse_blkid (s : String) :
    Except PyErr (List (List Char × List (List Char × List Char))) :=
  (pySplit ['\n'] s.data).foldlM parse_blkid_line []

/-! ## Side effects, exceptions and the `_mounts` registry

Stateful code is modelled in a monad `Eff`: the module-level `_mounts` list
(line 79) is threaded as explicit state, side effects are recorded as an
event trace, and Python exceptions short-circuit via `Except`. -/

inductive Event
  | exec (cmd : List String) (capture : Bool)   -- a subprocess invocation via execute()
  | makedirs (p : String)                       -- os.makedirs(p, exist_ok=True)
  | rmtree (p : String)                         -- shutil.rmtree(p, ignore_errors=True)
  | move (src dst : String)                     -- shutil.move
  | remove (p : String)                         -- os.remove
  | sleep (seconds : Nat)                       -- time.sleep
  | log                                         -- a logging call (message text immaterial)
  | existsCheck (p : String)                    -- pathlib.Path(p).exists()
  | listdir (p : String)                        -- os.listdir(p)
  | getsize (p : String)                        -- os.path.getsize(p)
  | chdir (p : String)                          -- os.chdir(p)
  | updateMakeMkvKey (settings : Option String) -- updateMakeMkvKey(...) from makemkvkey
  deriving DecidableEq, Repr

/-- Result of running an effectful computation: final `_mounts` registry,
emitted event trace, and normal result or propagating exception. -/
structure EffRes (α : Type) where
  reg : List String
  events : List Event
  res : Except PyErr α
  deriving Repr

def Eff (α : Type) : Type := List String → EffRes α

def Eff.pure {α : Type} (a : α) : Eff α := fun reg => ⟨reg, [], Except.ok a⟩

def Eff.bind {α β : Type} (x : Eff α) (f : α → Eff β) : Eff β := fun reg =>
  let o := x reg
  match o.res with
  | Except.error e => ⟨o.reg, o.events, Except.error e⟩
  | Except.ok a =>
    let o2 := f a o.reg
    ⟨o2.reg, o.events ++ o2.events, o2.res⟩

instance : Monad Eff where
  pure := Eff.pure
  bind := Eff.bind

/-- Raise a Python exception. -/
def raise {α : Type} (e : PyErr) : Eff α := fun reg => ⟨reg, [], Except.error e⟩

/-- Lift a pure fallible computation. -/
def liftE {α : Type} (x : Except PyErr α) : Eff α := fun reg => ⟨reg, [], x⟩

def emit (e : Event) : Eff Unit := fun reg => ⟨reg, [e], Except.ok ()⟩

def getReg : Eff (List String) := fun reg => ⟨reg, [], Except.ok reg⟩

def setReg (r : List String) : Eff Unit := fun _ => ⟨r, [], Except.ok ()⟩

/-- Python `try: x except Exception: h` (catches every exception; raised
exceptions do not roll back side effects already performed). -/
def tryCatchAll {α : Type} (x : Eff α) (h : PyErr → Eff α) : Eff α := fun reg =>
  let o := x reg
  match o.res with
  | Except.ok _ => o
  | Except.error e =>
    let o2 := h e o.reg
    ⟨o2.reg, o.events ++ o2.events, o2.res⟩

/-- Python `try: x except subprocess.CalledProcessError: h` — only that one
exception class is caught, anything else keeps propagating. -/
def tryCatchCPE {α : Type} (x : Eff α) (h : Eff α) : Eff α := fun reg =>
  let o := x reg
  match o.res with
  | Except.ok _ => o
  | Except.error PyErr.calledProcessError =>
    let o2 := h o.reg
    ⟨o2.reg, o.events ++ o2.events, o2.res⟩
  | Except.error e => ⟨o.reg, o.events, Except.error e⟩

/-- A Python `for` loop over a list, body in `Eff`. -/
def forEach {α : Type} : List α → (α → Eff Unit) → Eff Unit
  | [], _ => Eff.pure ()
  | a :: tl, f => Eff.bind (f a) (fun _ => forEach tl f)

/-- The external world: exit status and captured output of each subprocess
command, filesystem queries (two getsize fields model the two samples taken
around the 30s settle sleep in `transcode_file`), `os.path.abspath`
resolution and the current working directory. -/
structure Env where
  execOk : List String → Bool
  execOut : List String → String
  pathExists : String → Bool
  listdir : String → Except PyErr (List String)
  getsize1 : String → Except PyErr Nat
  getsize2 : String → Except PyErr Nat
  abspath : String → String
  cwd : String

/-- `execute(cmd)` in capture mode (lines 22-26): `subprocess.check_output`
returns the combined output stripped, or raises `CalledProcessError` on a
nonzero exit. -/
def execute_capture (env : Env) (cmd : List String) : Eff String := fun reg =>
  if env.execOk cmd then
    ⟨reg, [Event.exec cmd true], Except.ok (String.mk (pyStrip (env.execOut cmd).data))⟩
  else
    ⟨reg, [Event.exec cmd true], Except.error PyErr.calledProcessError⟩

/-- `execute(cmd, capture=False)` (lines 28-39): stream the output into the
log (per-line logging collapsed into the exec event; a `cwd=` argument does
not change which command runs) and raise a plain `Exception(exitcode)` on a
nonzero exit. -/
def execute_stream (env : Env) (cmd : List String) : Eff Unit := fun reg =>
  if env.execOk cmd then ⟨reg, [Event.exec cmd false], Except.ok ()⟩
  else ⟨reg, [Event.exec cmd false], Except.error PyErr.exceptionExit⟩

def os_path_exists (env : Env) (p : String) : Eff Bool := fun reg =>
  ⟨reg, [Event.existsCheck p], Except.ok (env.pathExists p)⟩

def os_listdir (env : Env) (p : String) : Eff (List String) := fun reg =>
  ⟨reg, [Event.listdir p], env.listdir p⟩

def os_getsize1 (env : Env) (p : String) : Eff Nat := fun reg =>
  ⟨reg, [Event.getsize p], env.getsize1 p⟩

def os_getsize2 (env : Env) (p : String) : Eff Nat := fun reg =>
  ⟨reg, [Event.getsize p], env.getsize2 p⟩

/-! ## eject / mount / unmount / mount_cleanup (rippa.py lines 76-91) -/

def eject (env : Env) (drive : String) : Eff Unit := do
  let _ ← execute_capture env ["sudo", "eject", "-F", drive]
  Eff.pure ()

/-- `mount` (lines 80-83): create the mount point, run the privileged mount
(raising on failure), and only then append the mount point to `_mounts`. -/
def mount (env : Env) (drive mnt_path : String) : Eff Unit := do
  emit (Event.makedirs mnt_path)
  let _ ← execute_capture env ["sudo", "mount", drive, mnt_path]
  let ms ← getReg
  setReg (ms ++ [mnt_path])

/-- `unmount` (lines 85-86): run the privileged unmount.  `_mounts` is not
touched, on success or on failure. -/
def unmount (env : Env) (mnt_path : String) : Eff Unit := do
  let _ ← execute_capture env ["sudo", "umount", mnt_path]
  Eff.pure ()

/-- `mount_cleanup` (lines 88-91): the atexit hook unmounts every registered
mount point in order (without clearing the registry). -/
def mount_cleanup (env : Env) : Eff Unit := do
  let ms ← getReg
  forEach ms (fun mnt => unmount env mnt)

/-! ## The thread classes -/

/-- `LoopThread.__init__` default polling interval (line 107). -/
def LoopThread.defaultInterval : Nat := 5

/-- `LoopThread.run` (lines 114-117): `while not self.stopped(): self.loop_step();
time.sleep(self._interval)`.  `stopAt k` is the value of the cooperative stop
flag observed at the start of cycle `k`, `step k` the event trace of the k-th
`loop_step`; `fuel` bounds how many cycles are examined (the loop itself is
unbounded).  Returns the observed trace and whether the loop has exited. -/
def loopRunAux (stopAt : Nat → Bool) (interval : Nat) (step : Nat → List Event) :
    Nat → Nat → List Event × Bool
  | _, 0 => ([], false)
  | k, fuel+1 =>
    if stopAt k then ([], true)
    else
      let r := loopRunAux stopAt interval step (k+1) fuel
      (step k ++ Event.sleep interval :: r.1, r.2)

def LoopThread.run (stopAt : Nat → Bool) (interval : Nat) (step : Nat → List Event)
    (fuel : Nat) : List Event × Bool :=
  loopRunAux stopAt interval step 0 fuel

/-- `RipThread` (line 196) subclasses `StoppableThread`, not `LoopThread`, and
does not override `run`; no constructor in the chain passes a `target`, so
`rip_thread.start()` dispatches to `threading.Thread.run`, whose body does
nothing when `_target` is unset.  The started orchestrator thread therefore
performs no poll cycle and terminates at once, with this (empty) trace. -/
def RipThread.runEvents : List Event := []

/-- The attributes assigned by `RipThread.__init__` (lines 197-217). -/
structure RipThread where
  drive : String
  wip_path : String
  dvd_path : String
  redbook_path : String
  iso_path : String
  bluray_path : String
  skip_eject : Bool
  makemkv_update_key : Bool
  makemkv_settings_path : Option String

/-- Attribute lookup `self.wip_root`.  `RipThread.__init__` assigns `drive`,
`wip_path`, `dvd_path`, `redbook_path`, `iso_path`, `bluray_path`,
`skip_eject`, `makemkv_update_key` and `makemkv_settings_path`; no superclass
initializer (`StoppableThread` sets `_stop_event`, `threading.Thread` its own
internals) and no method ever assigns `wip_root`, so Python attribute lookup
raises `AttributeError`. -/
def RipThread.wip_root (_ : RipThread) : Eff String := raise PyErr.attributeError

/-- Attribute lookup `self.out_root` — likewise never assigned anywhere on a
`RipThread`, so it raises `AttributeError` (see `RipThread.wip_root`). -/
def RipThread.out_root (_ : RipThread) : Eff String := raise PyErr.attributeError

/-- `int(re.search(r'\d+', s).group(0))` (line 239): the first maximal digit
run; when `s` has no digit, `re.search` returns `None` and `.group` raises
`AttributeError`. -/
def firstDigitRunAux : List Char → Option (List Char)
  | [] => none
  | c :: tl =>
    if isDecDigit c then some ((c :: tl).takeWhile isDecDigit)
    else firstDigitRunAux tl

def firstDigitRun (s : String) : Except PyErr Nat :=
  match firstDigitRunAux s.data with
  | some ds => Except.ok (digitsVal ds)
  | none => Except.error PyErr.attributeError

/-- `RipThread.rip_dvd` (lines 219-250). -/
def RipThread.rip_dvd (env : Env) (t : RipThread)
    (blkid_params : List (List Char × List Char)) : Eff Unit := do
  let label ← liftE (dictGet blkid_params "LABEL".data)
  let uuid ← liftE (dictGet blkid_params "UUID".data)
  let disc_name := String.mk label ++ "-" ++ String.mk uuid
  let wr ← t.wip_root
  let wip_path := wr ++ "/dvd/" ++ disc_name
  let outr ← t.out_root
  let out_path := outr ++ "/" ++ disc_name
  let ex ← os_path_exists env out_path
  if ex then
    emit Event.log
  else do
    if t.makemkv_update_key then
      emit (Event.updateMakeMkvKey t.makemkv_settings_path)
    emit Event.log
    emit (Event.rmtree wip_path)
    emit (Event.makedirs wip_path)
    emit (Event.makedirs out_path)
    let drive_id ← liftE (firstDigitRun t.drive)
    let o_path_abs := env.abspath wip_path
    emit Event.log
    execute_stream env ["makemkvcon", "mkv", "disc:" ++ toString drive_id, "all", o_path_abs]

/-- `str(hex(abs(n)))[2:]` (line 254): unsigned lowercase hexadecimal. -/
def pyHexAbs (n : Int) : String := String.mk (Nat.toDigits 16 n.natAbs)

/-- `RipThread.rip_redbook` (lines 252-284). -/
def RipThread.rip_redbook (env : Env) (t : RipThread) (cdp_str : String) : Eff Unit := do
  let h ← liftE (cdparanoia_hash cdp_str)
  let cdp_hash := pyHexAbs h
  let outr ← t.out_root
  let out_dir_path := outr
  emit (Event.makedirs out_dir_path)
  let folders ← os_listdir env out_dir_path
  -- the for loop returns (after one log) at the first folder ending in the hash
  if folders.any (fun f => cdp_hash.data.isSuffixOf f.data) then
    emit Event.log
  else do
    emit Event.log
    let wr ← t.wip_root
    let wip_dir_path := wr ++ "/redbook"
    emit (Event.makedirs wip_dir_path)
    emit (Event.chdir wip_dir_path)
    execute_stream env ["abcde", "-d", t.drive, "-o", "flac", "-B", "-N"]
    emit (Event.chdir env.cwd)
    let entries ← os_listdir env wip_dir_path
    let album_name ← liftE (listGet entries 0)
    let out_path := out_dir_path ++ "/" ++ album_name ++ "-" ++ cdp_hash
    emit (Event.move (wip_dir_path ++ "/" ++ album_name) out_path)

/-- Lines 303-308: the command list literal of `rip_data_disc`.  In the source
there is no comma after `"dd"`, so the adjacent string literals `"dd"` and
`f"if={self.drive}"` concatenate into a single first element. -/
def ripDataDiscCmd (drive out_path : String) : List String :=
  [("dd" ++ "if=" ++ drive), "of=" ++ out_path, "status=progress"]

/-- `RipThread.rip_data_disc` (lines 286-313). -/
def RipThread.rip_data_disc (env : Env) (t : RipThread)
    (blkid_params : List (List Char × List Char)) : Eff Unit := do
  let label ← liftE (dictGet blkid_params "LABEL".data)
  let uuid ← liftE (dictGet blkid_params "UUID".data)
  let file_name := String.mk label ++ "-" ++ String.mk uuid ++ ".iso"
  let wr ← t.wip_root
  let wip_dir_path := wr ++ "/iso"
  let outr ← t.out_root
  let out_dir_path := outr
  let wip_path := wip_dir_path ++ "/" ++ file_name
  let out_path := out_dir_path ++ "/" ++ file_name
  let ex ← os_path_exists env out_path
  if ex then
    emit Event.log
  else do
    emit Event.log
    emit (Event.makedirs wip_dir_path)
    emit (Event.makedirs out_dir_path)
    emit Event.log
    execute_stream env (ripDataDiscCmd t.drive out_path)
    emit (Event.move wip_path out_path)

/-- `RipThread.rip_bluray` (lines 315-316): a `pass` body (note the source
even omits `self`); never called. -/
def RipThread.rip_bluray (_ : List (List Char × List Char)) : Eff Unit :=
  Eff.pure ()

/-- The redbook block of `RipThread.loop_step` (lines 325-338): taken when
blkid produced no output; only `CalledProcessError` is caught, so any other
exception raised inside (in particular the `AttributeError` from
`rip_redbook`) keeps propagating. -/
def RipThread.loop_step_redbook (env : Env) (t : RipThread) : Eff Unit := do
  emit Event.log
  tryCatchCPE
    (do
      let cdp_text ← execute_capture env ["cdparanoia", "-sQ"]
      emit Event.log
      RipThread.rip_redbook env t cdp_text
      if !t.skip_eject then eject env t.drive)
    (emit Event.log)

/-- `RipThread.loop_step` (lines 318-357). -/
def RipThread.loop_step (env : Env) (t : RipThread) : Eff Unit := do
  let blkid_str : Option String ← tryCatchAll
    (do
      let s ← execute_capture env ["blkid", t.drive]
      Eff.pure (some s))
    (fun _ => do
      emit Event.log
      Eff.pure (none : Option String))
  match blkid_str with
  | none => RipThread.loop_step_redbook env t
  | some s =>
    if s = "" then RipThread.loop_step_redbook env t
    else do
      emit Event.log
      let d ← liftE (parse_blkid s)
      let blkid_params ← liftE (dictGet d t.drive.data)
      emit Event.log
      let mnt_path := "./mnt" ++ t.drive
      tryCatchAll (mount env t.drive mnt_path) (fun _ => emit Event.log)
      let vid ← os_path_exists env (mnt_path ++ "/VIDEO_TS")
      if vid then RipThread.rip_dvd env t blkid_params
      else RipThread.rip_data_disc env t blkid_params
      if !t.skip_eject then eject env t.drive

/-! ## TranscodeThread (rippa.py lines 120-193) -/

structure TranscodeThread where
  wip_root : String
  out_root : String
  ffmpeg_args : List String

/-- The default ffmpeg argument list of `TranscodeThread.__init__` (lines 126-133). -/
def TranscodeThread.defaultFfmpegArgs : List String :=
  ["-c:v", "libx264", "-crf", "18", "-map", "0", "-c:a", "copy", "-c:s", "copy"]

/-- `TranscodeThread.__init__` (lines 121-134). -/
def TranscodeThread.init (wip_root out_root : String)
    (ffmpeg_args : Option (List String)) : TranscodeThread :=
  ⟨wip_root, out_root, ffmpeg_args.getD TranscodeThread.defaultFfmpegArgs⟩

/-- `os.path.basename`: the part after the last '/'. -/
def basename (p : String) : String :=
  String.mk ((p.data.reverse.takeWhile (fun c => !(c == '/'))).reverse)

/-- `os.path.splitext(name)[0]` for a slash-free `name` (as applied on line
156, where `name` is already a basename): cut at the last dot unless all
characters before it are dots. -/
def splitextRoot (name : List Char) : List Char :=
  let r := name.reverse
  let afterDot := r.takeWhile (fun c => !(c == '.'))
  if afterDot.length = r.length then name
  else
    let beforeDot := (r.drop (afterDot.length + 1)).reverse
    if beforeDot.all (fun c => c == '.') then name
    else beforeDot

/-- `TranscodeThread.transcode_file` (lines 136-169). -/
def TranscodeThread.transcode_file (env : Env) (t : TranscodeThread)
    (file_path out_path : String) : Eff Unit := do
  let size1 ← os_getsize1 env file_path
  emit Event.log
  if size1 < 1024 * 1024 then
    emit Event.log
  else do
    emit (Event.sleep 30)
    let size2 ← os_getsize2 env file_path
    emit Event.log
    if size1 ≠ size2 then
      emit Event.log
    else do
      emit (Event.makedirs out_path)
      let file_name := basename file_path
      let file_no_ext := String.mk (splitextRoot file_name.data)
      let out_file_path := out_path ++ "/" ++ file_no_ext ++ ".mp4"
      emit Event.log
      execute_stream env (["ffmpeg", "-i", file_path] ++ t.ffmpeg_args ++ [out_file_path])
      emit Event.log
      emit (Event.remove file_path)

/-- `TranscodeThread.transcode_disc` (lines 171-186): each file's conversion
attempt is wrapped in `try: ... except Exception:` with two debug logs. -/
def TranscodeThread.transcode_disc (env : Env) (t : TranscodeThread)
    (disc_name : String) : Eff Unit := do
  let wip_dvd_root := t.wip_root ++ "/dvd"
  let wip_path := wip_dvd_root ++ "/" ++ disc_name
  let out_path := t.out_root ++ "/" ++ disc_name
  let files ← os_listdir env wip_path
  emit Event.log
  forEach files (fun file =>
    tryCatchAll
      (TranscodeThread.transcode_file env t (wip_path ++ "/" ++ file) out_path)
      (fun _ => do
        emit Event.log
        emit Event.log))

/-- `TranscodeThread.loop_step` (lines 188-193). -/
def TranscodeThread.loop_step (env : Env) (t : TranscodeThread) : Eff Unit := do
  emit Event.log
  let discs ← os_listdir env (t.wip_root ++ "/dvd")
  forEach discs (fun disc_name => do
    emit Event.log
    TranscodeThread.transcode_disc env t disc_name)

/-! ## Specification-side definitions

These are not translations of `rippa.py`; they state the documented input
format so that parsing can be compared against it (C6), and provide concrete
environments for witnesses and counterexamples. -/

/-- Does the text contain the two-character sequence `": "` (colon-space)?
`parse_blkid` splits each line on it. -/
def hasCS : List Char → Bool
  | [] => false
  | [_] => false
  | a :: b :: tl => (decide (a = ':') && decide (b = ' ')) || hasCS (b :: tl)

/-- Render one `KEY="value"` chunk of a block-probe line. -/
def renderPair (kv : List Char × List Char) : List Char :=
  kv.1 ++ '=' :: '\"' :: (kv.2 ++ ['\"'])

/-- Chunks of one line, joined by single spaces. -/
def renderParams : List (List Char × List Char) → List Char
  | [] => []
  | [kv] => renderPair kv
  | kv :: rest => renderPair kv ++ ' ' :: renderParams rest

/-- One `device: KEY="value" KEY2="value2"` line. -/
def renderLine (e : List Char × List (List Char × List Char)) : List Char :=
  e.1 ++ ':' :: ' ' :: renderParams e.2

/-- A whole block-probe output: lines joined by newlines. -/
def renderBlkid : List (List Char × List (List Char × List Char)) → List Char
  | [] => []
  | [e] => renderLine e
  | e :: rest => renderLine e ++ '\n' :: renderBlkid rest

/-- A key is a nonempty `\w+` word. -/
abbrev wfKey (k : List Char) : Prop := k ≠ [] ∧ ∀ c ∈ k, isWordChar c = true

/-- A value is nonempty, contains no double quote and no newline, and does
not contain the sequence colon-space. -/
abbrev wfValue (v : List Char) : Prop :=
  v ≠ [] ∧ (∀ c ∈ v, c ≠ '\"' ∧ c ≠ '\n') ∧ hasCS v = false

abbrev wfPairs (ps : List (List Char × List Char)) : Prop :=
  (∀ p ∈ ps, wfKey p.1 ∧ wfValue p.2) ∧ (ps.map Prod.fst).Nodup

/-- A device name is nonempty and contains neither a newline nor the sequence
colon-space. -/
abbrev wfDevice (d : List Char) : Prop := d ≠ [] ∧ '\n' ∉ d ∧ hasCS d = false

abbrev wfEntries (es : List (List Char × List (List Char × List Char))) : Prop :=
  (∀ e ∈ es, wfDevice e.1 ∧ wfPairs e.2) ∧ (es.map Prod.fst).Nodup

/-- Concrete environment: every command succeeds, the block probe reports a
label and UUID for /dev/sr0, and every path (in particular any output
artifact) exists. -/
def envA : Env where
  execOk := fun _ => true
  execOut := fun _ => "/dev/sr0: LABEL=\"A\" UUID=\"B\""
  pathExists := fun _ => true
  listdir := fun _ => Except.ok []
  getsize1 := fun _ => Except.ok 0
  getsize2 := fun _ => Except.ok 0
  abspath := fun p => p
  cwd := "/home"

/-- Like `envA` but no path exists (no output artifact present). -/
def envB : Env := { envA with pathExists := fun _ => false }

/-- Environment for the transcode watcher: a stable 2 MiB file. -/
def envC : Env :=
  { envA with
      getsize1 := fun _ => Except.ok 2097152
      getsize2 := fun _ => Except.ok 2097152
      listdir := fun _ => Except.ok ["t.mkv", "u.mkv"] }

/-- Like `envC` but the transcoder invocation fails (every `ffmpeg` command
exits nonzero). -/
def envD : Env :=
  { envC with execOk := fun cmd => !(cmd.headD "" == "ffmpeg") }

/-- A concrete `RipThread` construction (drive /dev/sr0, eject enabled). -/
def threadA : RipThread where
  drive := "/dev/sr0"
  wip_path := "./wip"
  dvd_path := "./dvd"
  redbook_path := "./redbook"
  iso_path := "./iso"
  bluray_path := "./bluray"
  skip_eject := false
  makemkv_update_key := false
  makemkv_settings_path := none

/-- A concrete `TranscodeThread` construction (default ffmpeg arguments). -/
def watcherA : TranscodeThread := TranscodeThread.init "./wip" "./out" none

/-- The concrete single-device blkid output of the C6 example. -/
def entriesA : List (List Char × List (List Char × List Char)) :=
  [("/dev/sr0".data, [("LABEL".data, "MY_DVD".data), ("UUID".data, "1234-5678".data)])]

/-! # Theorems -/

/-! ## Generic lemmas about the effect monad -/

@[simp] theorem eff_bind_eq {α β : Type} (x : Eff α) (f : α → Eff β) :
    x >>= f = Eff.bind x f := rfl

@[simp] theorem eff_pure_eq {α : Type} (a : α) : (pure a : Eff α) = Eff.pure a := rfl

theorem eff_bind_ok {α β : Type} {x : Eff α} {reg reg' : List String}
    {evs : List Event} {a : α} (f : α → Eff β)
    (h : x reg = ⟨reg', evs, Except.ok a⟩) :
    Eff.bind x f reg = ⟨(f a reg').reg, evs ++ (f a reg').events, (f a reg').res⟩ := by
  simp [Eff.bind, h]

theorem eff_bind_err {α β : Type} {x : Eff α} {reg reg' : List String}
    {evs : List Event} {e : PyErr} (f : α → Eff β)
    (h : x reg = ⟨reg', evs, Except.error e⟩) :
    Eff.bind x f reg = ⟨reg', evs, Except.error e⟩ := by
  simp [Eff.bind, h]

theorem tryCatchAll_of_ok {α : Type} {x : Eff α} {reg r' : List String}
    {evs : List Event} {a : α} (h' : x reg = ⟨r', evs, Except.ok a⟩)
    (h : PyErr → Eff α) : tryCatchAll x h reg = ⟨r', evs, Except.ok a⟩ := by
  simp [tryCatchAll, h']

theorem tryCatchAll_of_err {α : Type} {x : Eff α} {reg r' : List String}
    {evs : List Event} {e : PyErr} (h' : x reg = ⟨r', evs, Except.error e⟩)
    (h : PyErr → Eff α) :
    tryCatchAll x h reg = ⟨(h e r').reg, evs ++ (h e r').events, (h e r').res⟩ := by
  simp [tryCatchAll, h']

theorem tryCatchCPE_of_ok {α : Type} {x : Eff α} {reg r' : List String}
    {evs : List Event} {a : α} (h' : x reg = ⟨r', evs, Except.ok a⟩)
    (h : Eff α) : tryCatchCPE x h reg = ⟨r', evs, Except.ok a⟩ := by
  simp [tryCatchCPE, h']

theorem tryCatchCPE_of_other {α : Type} {x : Eff α} {reg r' : List String}
    {evs : List Event} {e : PyErr} (h' : x reg = ⟨r', evs, Except.error e⟩)
    (hne : e ≠ PyErr.calledProcessError) (h : Eff α) :
    tryCatchCPE x h reg = ⟨r', evs, Except.error e⟩ := by
  cases e
  case calledProcessError => exact absurd rfl hne
  all_goals simp [tryCatchCPE, h']

/-! ## Characterizations of the mount manager -/

theorem mount_ok_char (env : Env) (drive p : String) (reg : List String)
    (h : env.execOk ["sudo", "mount", drive, p] = true) :
    mount env drive p reg =
      ⟨reg ++ [p], [Event.makedirs p, Event.exec ["sudo", "mount", drive, p] true],
        Except.ok ()⟩ := by
  simp [mount, Eff.bind, Eff.pure, emit, execute_capture, getReg, setReg, h]

theorem mount_err_char (env : Env) (drive p : String) (reg : List String)
    (h : env.execOk ["sudo", "mount", drive, p] = false) :
    mount env drive p reg =
      ⟨reg, [Event.makedirs p, Event.exec ["sudo", "mount", drive, p] true],
        Except.error PyErr.calledProcessError⟩ := by
  simp [mount, Eff.bind, Eff.pure, emit, execute_capture, getReg, setReg, h]

theorem unmount_reg (env : Env) (q : String) (reg : List String) :
    (unmount env q reg).reg = reg := by
  by_cases h : env.execOk ["sudo", "umount", q] = true <;>
    simp [unmount, Eff.bind, Eff.pure, execute_capture, h]

/-! ## Characterizations of the rip routines (C3 helpers) -/

theorem rip_dvd_attr (env : Env) (t : RipThread) (params : List (List Char × List Char))
    (reg : List String) (l u : List Char)
    (hL : dictGet params "LABEL".data = Except.ok l)
    (hU : dictGet params "UUID".data = Except.ok u) :
    RipThread.rip_dvd env t params reg = ⟨reg, [], Except.error PyErr.attributeError⟩ := by
  simp [RipThread.rip_dvd, Eff.bind, liftE, raise, RipThread.wip_root, hL, hU]

theorem rip_data_disc_attr (env : Env) (t : RipThread)
    (params : List (List Char × List Char)) (reg : List String) (l u : List Char)
    (hL : dictGet params "LABEL".data = Except.ok l)
    (hU : dictGet params "UUID".data = Except.ok u) :
    RipThread.rip_data_disc env t params reg = ⟨reg, [], Except.error PyErr.attributeError⟩ := by
  simp [RipThread.rip_data_disc, Eff.bind, liftE, raise, RipThread.wip_root, hL, hU]

theorem rip_redbook_attr (env : Env) (t : RipThread) (cdp : String)
    (reg : List String) (n : Int) (hC : cdparanoia_hash cdp = Except.ok n) :
    RipThread.rip_redbook env t cdp reg = ⟨reg, [], Except.error PyErr.attributeError⟩ := by
  simp [RipThread.rip_redbook, Eff.bind, liftE, raise, RipThread.out_root, hC]

/-! ## C5 — the mount registry -/

/-- C5 counterexample: with every command succeeding, `unmount` on the sole
registered mount point `./m` returns normally (the unmount succeeded) yet the
registration survives — the claim says a successful unmount destroys it. -/
theorem c5_counterexample :
    unmount envA "./m" ["./m"] =
      ⟨["./m"], [Event.exec ["sudo", "umount", "./m"] true], Except.ok ()⟩
    ∧ (["./m"] : List String) ≠ [] := ⟨rfl, by decide⟩

/-- C5 (amended): the registry gains an entry exactly when a mount operation
succeeds — a failed mount raises and leaves the registry unchanged — but
`unmount` never modifies the registry: no deregistration exists, whether the
unmount succeeds or fails; entries are only consumed by the at-exit sweep. -/
theorem c5_mount_registry (env : Env) (drive p q : String) (reg : List String) :
    (env.execOk ["sudo", "mount", drive, p] = true →
      mount env drive p reg =
        ⟨reg ++ [p], [Event.makedirs p, Event.exec ["sudo", "mount", drive, p] true],
          Except.ok ()⟩)
    ∧ (env.execOk ["sudo", "mount", drive, p] = false →
      mount env drive p reg =
        ⟨reg, [Event.makedirs p, Event.exec ["sudo", "mount", drive, p] true],
          Except.error PyErr.calledProcessError⟩)
    ∧ (unmount env q reg).reg = reg := by
  refine ⟨fun h => ?_, fun h => ?_, ?_⟩
  · simp [mount, Eff.bind, Eff.pure, emit, execute_capture, getReg, setReg, h]
  · simp [mount, Eff.bind, Eff.pure, emit, execute_capture, getReg, setReg, h]
  · by_cases h : env.execOk ["sudo", "umount", q] = true <;>
      simp [unmount, Eff.bind, Eff.pure, execute_capture, h]

/-- C5 witness: instantiating the amended statement at a concrete environment
where the mount command succeeds. -/
theorem c5_witness :
    mount envA "/dev/sr0" "./m" [] =
      ⟨["./m"], [Event.makedirs "./m", Event.exec ["sudo", "mount", "/dev/sr0", "./m"] true],
        Except.ok ()⟩
    ∧ (unmount envA "./m" ["./m"]).reg = ["./m"] :=
  ⟨(c5_mount_registry envA "/dev/sr0" "./m" "./m" []).1 rfl,
   (c5_mount_registry envA "/dev/sr0" "./m" "./m" ["./m"]).2.2⟩

/-! ## C10 — the data-disc raw copy -/

/-- C10: with no output artifact present and blkid parameters carrying LABEL
and UUID, `rip_data_disc` does not invoke any external tool at all — it
raises `AttributeError` (reading the never-assigned `self.wip_root`) with an
empty event trace, before the existence check; and even the command literal
it would eventually build does not start with the `dd` executable: the
missing comma after `"dd"` merges it with the `if=` operand. -/
theorem c10_data_disc_dd_never_runs :
    RipThread.rip_data_disc envB threadA
        [("LABEL".data, "X".data), ("UUID".data, "Y".data)] []
      = ⟨[], [], Except.error PyErr.attributeError⟩
    ∧ ripDataDiscCmd "/dev/sr0" "./iso/X-Y.iso"
      = ["ddif=/dev/sr0", "of=./iso/X-Y.iso", "status=progress"]
    ∧ (ripDataDiscCmd "/dev/sr0" "./iso/X-Y.iso").headD "" ≠ "dd" :=
  ⟨rfl, rfl, by decide⟩

/-! ## C1 — the orchestrator thread never loops -/

/-- C1: the claim describes the `LoopThread.run` behaviour — while the stop
flag stays false, each cycle is one `loop_step` trace followed by a fixed
sleep, and a true flag observed at a cycle boundary stops the loop — but
`RipThread` subclasses `StoppableThread` and inherits `threading.Thread.run`,
which has no target and returns at once: the started orchestrator thread
produces the empty trace and performs no poll cycle. -/
theorem c1_orchestrator_thread_never_polls :
    RipThread.runEvents = ([] : List Event)
    ∧ (∀ (interval : Nat) (step : Nat → List Event) (k fuel : Nat),
        loopRunAux (fun _ => false) interval step k (fuel + 1)
          = (step k ++ Event.sleep interval ::
              (loopRunAux (fun _ => false) interval step (k + 1) fuel).1, false))
    ∧ (∀ (interval : Nat) (step : Nat → List Event) (k fuel : Nat),
        loopRunAux (fun _ => true) interval step k (fuel + 1) = ([], true)) := by
  refine ⟨rfl, fun interval step k fuel => ?_, fun interval step k fuel => by
    simp [loopRunAux]⟩
  have h : ∀ n j, (loopRunAux (fun _ => false) interval step j n).2 = false := by
    intro n
    induction n with
    | zero => intro j; simp [loopRunAux]
    | succ n ih => intro j; simp [loopRunAux, ih]
  simp [loopRunAux, h]

/-! ## C7 — fingerprint determinism -/

/-- C7: the fingerprint factors through the extracted ordered track-length
sequence, so two audio-table texts with identical extracted sequences hash
identically. -/
theorem c7_fingerprint_deterministic (s1 s2 : String)
    (h : cdparanoia_lengths s1 = cdparanoia_lengths s2) :
    cdparanoia_hash s1 = cdparanoia_hash s2 := by
  unfold cdparanoia_hash
  rw [h]

/-- C7 witness: two concretely different table texts (different header lines)
with the same single extracted track length 150 get the same hash. -/
theorem c7_witness :
    cdparanoia_hash "h1\nh2\nh3\nh4\nh5\nh6\n 1. 150 a b c d e f\nf1\nf2"
      = cdparanoia_hash "A\nB\nC\nD\nE\nF\n 1. 150 a b c d e f\nf1\nf2"
    ∧ cdparanoia_lengths "h1\nh2\nh3\nh4\nh5\nh6\n 1. 150 a b c d e f\nf1\nf2"
      = Except.ok [150] :=
  ⟨c7_fingerprint_deterministic
      "h1\nh2\nh3\nh4\nh5\nh6\n 1. 150 a b c d e f\nf1\nf2"
      "A\nB\nC\nD\nE\nF\n 1. 150 a b c d e f\nf1\nf2" rfl, rfl⟩

/-! ## C3 — every rip routine dies before ripping or skipping -/

/-- C3 counterexample: an invocation of `rip_dvd` whose params dict lacks
`LABEL` raises `KeyError`, not an attribute-not-found error — so not *every*
invocation raises `AttributeError`. -/
theorem c3_counterexample :
    RipThread.rip_dvd envA threadA [] [] = ⟨[], [], Except.error PyErr.keyError⟩
    ∧ PyErr.keyError ≠ PyErr.attributeError := ⟨rfl, by decide⟩

/-- C3 (amended): whenever the params dict carries `LABEL` and `UUID`,
`rip_dvd` and `rip_data_disc` raise `AttributeError` (reading the
never-assigned `self.wip_root`) with an empty event trace — hence before any
external invocation and before the output-exists check — and `rip_redbook`
does the same (via `self.out_root`) whenever its fingerprint computation
succeeds; moreover for *every* input each of the three routines produces no
event at all and ends in some exception, so no rip routine ever performs a
rip or completes a skip. -/
theorem c3_rip_routines_never_rip (env : Env) (t : RipThread)
    (params : List (List Char × List Char)) (cdp : String) (reg : List String)
    (l u : List Char) (n : Int)
    (hL : dictGet params "LABEL".data = Except.ok l)
    (hU : dictGet params "UUID".data = Except.ok u)
    (hC : cdparanoia_hash cdp = Except.ok n) :
    RipThread.rip_dvd env t params reg = ⟨reg, [], Except.error PyErr.attributeError⟩
    ∧ RipThread.rip_data_disc env t params reg = ⟨reg, [], Except.error PyErr.attributeError⟩
    ∧ RipThread.rip_redbook env t cdp reg = ⟨reg, [], Except.error PyErr.attributeError⟩
    ∧ (∀ (params' : List (List Char × List Char)) (reg' : List String),
        (∃ e, RipThread.rip_dvd env t params' reg' = ⟨reg', [], Except.error e⟩)
        ∧ (∃ e, RipThread.rip_data_disc env t params' reg' = ⟨reg', [], Except.error e⟩))
    ∧ (∀ (cdp' : String) (reg' : List String),
        ∃ e, RipThread.rip_redbook env t cdp' reg' = ⟨reg', [], Except.error e⟩) := by
  refine ⟨rip_dvd_attr env t params reg l u hL hU,
    rip_data_disc_attr env t params reg l u hL hU,
    rip_redbook_attr env t cdp reg n hC, ?_, ?_⟩
  · intro params' reg'
    constructor
    · rcases hL' : dictGet params' "LABEL".data with e | l'
      · exact ⟨e, by simp [RipThread.rip_dvd, Eff.bind, liftE, hL']⟩
      · rcases hU' : dictGet params' "UUID".data with e | u'
        · exact ⟨e, by simp [RipThread.rip_dvd, Eff.bind, liftE, hL', hU']⟩
        · exact ⟨PyErr.attributeError, rip_dvd_attr env t params' reg' l' u' hL' hU'⟩
    · rcases hL' : dictGet params' "LABEL".data with e | l'
      · exact ⟨e, by simp [RipThread.rip_data_disc, Eff.bind, liftE, hL']⟩
      · rcases hU' : dictGet params' "UUID".data with e | u'
        · exact ⟨e, by simp [RipThread.rip_data_disc, Eff.bind, liftE, hL', hU']⟩
        · exact ⟨PyErr.attributeError, rip_data_disc_attr env t params' reg' l' u' hL' hU'⟩
  · intro cdp' reg'
    rcases hC' : cdparanoia_hash cdp' with e | n'
    · exact ⟨e, by simp [RipThread.rip_redbook, Eff.bind, liftE, hC']⟩
    · exact ⟨PyErr.attributeError, rip_redbook_attr env t cdp' reg' n' hC'⟩

/-- C3 witness: concrete instantiation with params `{LABEL: X, UUID: Y}` and
the empty audio table (whose fingerprint computation succeeds). -/
theorem c3_witness :
    RipThread.rip_dvd envA threadA [("LABEL".data, "X".data), ("UUID".data, "Y".data)] []
      = ⟨[], [], Except.error PyErr.attributeError⟩
    ∧ RipThread.rip_redbook envA threadA "" []
      = ⟨[], [], Except.error PyErr.attributeError⟩ :=
  ⟨(c3_rip_routines_never_rip envA threadA
      [("LABEL".data, "X".data), ("UUID".data, "Y".data)] "" []
      "X".data "Y".data (pyHashTuple []) rfl rfl rfl).1,
   (c3_rip_routines_never_rip envA threadA
      [("LABEL".data, "X".data), ("UUID".data, "Y".data)] "" []
      "X".data "Y".data (pyHashTuple []) rfl rfl rfl).2.2.1⟩

/-! ## C4 — the transcode stability gate -/

/-- C4: a file whose first size sample is under 1 MiB is neither passed to
the transcoder nor deleted (trace: size probe and two logs only); a file at
least 1 MiB whose two samples (taken around the 30s settle sleep) differ is
neither passed nor deleted in this cycle; a stable file of at least 1 MiB is
passed to the transcoder exactly once (a single exec event), and the WIP file
is removed only after that invocation succeeds — on a transcoder failure the
exception propagates with no remove event. -/
theorem c4_stability_gate (env : Env) (t : TranscodeThread) (fp op : String)
    (reg : List String) (s1 : Nat) (h1 : env.getsize1 fp = Except.ok s1) :
    (s1 < 1024 * 1024 →
      TranscodeThread.transcode_file env t fp op reg
        = ⟨reg, [Event.getsize fp, Event.log, Event.log], Except.ok ()⟩)
    ∧ (∀ s2 : Nat, 1024 * 1024 ≤ s1 → env.getsize2 fp = Except.ok s2 → s1 ≠ s2 →
      TranscodeThread.transcode_file env t fp op reg
        = ⟨reg, [Event.getsize fp, Event.log, Event.sleep 30, Event.getsize fp,
            Event.log, Event.log], Except.ok ()⟩)
    ∧ (1024 * 1024 ≤ s1 → env.getsize2 fp = Except.ok s1 →
      (env.execOk (["ffmpeg", "-i", fp] ++ t.ffmpeg_args ++
          [op ++ "/" ++ String.mk (splitextRoot (basename fp).data) ++ ".mp4"]) = true →
        TranscodeThread.transcode_file env t fp op reg
          = ⟨reg, [Event.getsize fp, Event.log, Event.sleep 30, Event.getsize fp, Event.log,
              Event.makedirs op, Event.log,
              Event.exec (["ffmpeg", "-i", fp] ++ t.ffmpeg_args ++
                [op ++ "/" ++ String.mk (splitextRoot (basename fp).data) ++ ".mp4"]) false,
              Event.log, Event.remove fp], Except.ok ()⟩)
      ∧ (env.execOk (["ffmpeg", "-i", fp] ++ t.ffmpeg_args ++
          [op ++ "/" ++ String.mk (splitextRoot (basename fp).data) ++ ".mp4"]) = false →
        TranscodeThread.transcode_file env t fp op reg
          = ⟨reg, [Event.getsize fp, Event.log, Event.sleep 30, Event.getsize fp, Event.log,
              Event.makedirs op, Event.log,
              Event.exec (["ffmpeg", "-i", fp] ++ t.ffmpeg_args ++
                [op ++ "/" ++ String.mk (splitextRoot (basename fp).data) ++ ".mp4"]) false],
              Except.error PyErr.exceptionExit⟩)) := by
  refine ⟨fun hlt => ?_, fun s2 hge h2 hne => ?_, fun hge h2 => ⟨fun hexec => ?_, fun hexec => ?_⟩⟩
  · simp [TranscodeThread.transcode_file, Eff.bind, Eff.pure, emit, os_getsize1, h1, hlt]
  · simp [TranscodeThread.transcode_file, Eff.bind, Eff.pure, emit, os_getsize1, os_getsize2,
      h1, h2, hne, Nat.not_lt_of_le hge]
  · simp only [List.cons_append, List.nil_append] at hexec
    simp [TranscodeThread.transcode_file, Eff.bind, Eff.pure, emit, os_getsize1, os_getsize2,
      execute_stream, h1, h2, hexec, Nat.not_lt_of_le hge]
  · simp only [List.cons_append, List.nil_append] at hexec
    simp [TranscodeThread.transcode_file, Eff.bind, Eff.pure, emit, os_getsize1, os_getsize2,
      execute_stream, h1, h2, hexec, Nat.not_lt_of_le hge]

/-- C4 witness: a stable 2 MiB file is transcoded exactly once and removed
afterwards. -/
theorem c4_witness :
    TranscodeThread.transcode_file envC watcherA "./wip/dvd/D/t.mkv" "./out/D" []
      = ⟨[], [Event.getsize "./wip/dvd/D/t.mkv", Event.log, Event.sleep 30,
          Event.getsize "./wip/dvd/D/t.mkv", Event.log, Event.makedirs "./out/D", Event.log,
          Event.exec ["ffmpeg", "-i", "./wip/dvd/D/t.mkv", "-c:v", "libx264", "-crf", "18",
            "-map", "0", "-c:a", "copy", "-c:s", "copy", "./out/D/t.mp4"] false,
          Event.log, Event.remove "./wip/dvd/D/t.mkv"], Except.ok ()⟩ := by
  have h := ((c4_stability_gate envC watcherA "./wip/dvd/D/t.mkv" "./out/D" [] 2097152
      rfl).2.2 (by decide) rfl).1 rfl
  simpa using h

/-! ## C9 — per-file failure isolation in the watcher -/

theorem effres_eta {α : Type} (x : EffRes α) (r : List String) (res : Except PyErr α)
    (hr : x.reg = r) (hres : x.res = res) : x = ⟨r, x.events, res⟩ := by
  cases x
  cases hr
  cases hres
  rfl

theorem transcode_file_reg (env : Env) (t : TranscodeThread) (fp op : String)
    (r : List String) : (TranscodeThread.transcode_file env t fp op r).reg = r := by
  rcases h1 : env.getsize1 fp with e | s1
  · simp [TranscodeThread.transcode_file, Eff.bind, Eff.pure, emit, os_getsize1, h1]
  · by_cases hlt : s1 < 1024 * 1024
    · simp [TranscodeThread.transcode_file, Eff.bind, Eff.pure, emit, os_getsize1, h1, hlt]
    · rcases h2 : env.getsize2 fp with e | s2
      · simp [TranscodeThread.transcode_file, Eff.bind, Eff.pure, emit, os_getsize1,
          os_getsize2, h1, h2, hlt]
      · by_cases hne : s1 = s2
        · subst hne
          by_cases hx : env.execOk ("ffmpeg" :: "-i" :: fp :: (t.ffmpeg_args ++
              [op ++ "/" ++ String.mk (splitextRoot (basename fp).data) ++ ".mp4"])) = true
          · simp [TranscodeThread.transcode_file, Eff.bind, Eff.pure, emit, os_getsize1,
              os_getsize2, execute_stream, h1, h2, hlt, hx]
          · simp [TranscodeThread.transcode_file, Eff.bind, Eff.pure, emit, os_getsize1,
              os_getsize2, execute_stream, h1, h2, hlt, hx]
        · simp [TranscodeThread.transcode_file, Eff.bind, Eff.pure, emit, os_getsize1,
            os_getsize2, h1, h2, hlt, hne]

/-- One per-file conversion attempt of `transcode_disc` (the try/except around
`transcode_file`): it always returns normally, leaves the registry unchanged,
and its trace is the attempt trace plus two debug logs when the attempt
raised. -/
theorem attempt_char (env : Env) (t : TranscodeThread) (fp op : String)
    (reg : List String) :
    tryCatchAll (TranscodeThread.transcode_file env t fp op)
        (fun _ => do emit Event.log; emit Event.log) reg
      = ⟨reg, (TranscodeThread.transcode_file env t fp op reg).events ++
          (match (TranscodeThread.transcode_file env t fp op reg).res with
            | Except.ok _ => []
            | Except.error _ => [Event.log, Event.log]),
          Except.ok ()⟩ := by
  have hreg := transcode_file_reg env t fp op reg
  rcases hres : (TranscodeThread.transcode_file env t fp op reg).res with e | a
  · rw [tryCatchAll_of_err (effres_eta _ _ _ hreg hres)]
    simp [Eff.bind, emit]
  · rw [tryCatchAll_of_ok (effres_eta _ _ _ hreg hres)]
    simp

/-- A Python `for` loop whose body always returns normally and preserves the
registry visits every element and concatenates their traces. -/
theorem forEach_congr_ok {α : Type} (l : List α) (f : α → Eff Unit) (reg : List String)
    (h : ∀ a ∈ l, ∀ r, (f a r).reg = r ∧ (f a r).res = Except.ok ()) :
    forEach l f reg =
      ⟨reg, (l.map (fun a => (f a reg).events)).flatten, Except.ok ()⟩ := by
  induction l with
  | nil => simp [forEach, Eff.pure]
  | cons a tl ih =>
    obtain ⟨hr, hres⟩ := h a (by simp) reg
    have hfa : f a reg = ⟨reg, (f a reg).events, Except.ok ()⟩ := effres_eta _ _ _ hr hres
    have : forEach (a :: tl) f reg = Eff.bind (f a) (fun _ => forEach tl f) reg := rfl
    rw [this, eff_bind_ok _ hfa, ih (fun b hb r => h b (List.mem_cons_of_mem _ hb) r)]
    simp

/-- `transcode_disc` on a listable WIP directory: always returns normally,
with the trace of every file's attempt present in order. -/
theorem transcode_disc_char (env : Env) (t : TranscodeThread) (disc : String)
    (reg : List String) (files : List String)
    (h : env.listdir (t.wip_root ++ "/dvd" ++ "/" ++ disc) = Except.ok files) :
    TranscodeThread.transcode_disc env t disc reg
      = ⟨reg, Event.listdir (t.wip_root ++ "/dvd" ++ "/" ++ disc) :: Event.log ::
          (files.map (fun file =>
            (TranscodeThread.transcode_file env t
                (t.wip_root ++ "/dvd" ++ "/" ++ disc ++ "/" ++ file)
                (t.out_root ++ "/" ++ disc) reg).events ++
            (match (TranscodeThread.transcode_file env t
                (t.wip_root ++ "/dvd" ++ "/" ++ disc ++ "/" ++ file)
                (t.out_root ++ "/" ++ disc) reg).res with
              | Except.ok _ => []
              | Except.error _ => [Event.log, Event.log]))).flatten,
        Except.ok ()⟩ := by
  have hstep : TranscodeThread.transcode_disc env t disc reg
      = Eff.bind (os_listdir env (t.wip_root ++ "/dvd" ++ "/" ++ disc))
          (fun files' => Eff.bind (emit Event.log)
            (fun _ => forEach files' (fun file =>
              tryCatchAll
                (TranscodeThread.transcode_file env t
                  (t.wip_root ++ "/dvd" ++ "/" ++ disc ++ "/" ++ file)
                  (t.out_root ++ "/" ++ disc))
                (fun _ => do emit Event.log; emit Event.log)))) reg := rfl
  rw [hstep,
    eff_bind_ok _ (show os_listdir env (t.wip_root ++ "/dvd" ++ "/" ++ disc) reg
      = ⟨reg, [Event.listdir (t.wip_root ++ "/dvd" ++ "/" ++ disc)], Except.ok files⟩
      from by simp [os_listdir, h]),
    eff_bind_ok _ (show emit Event.log reg = ⟨reg, [Event.log], Except.ok ()⟩ from rfl),
    forEach_congr_ok _ _ _ (fun a _ r => by rw [attempt_char]; exact ⟨rfl, rfl⟩)]
  refine congrArg (fun evs => EffRes.mk reg
    (Event.listdir (t.wip_root ++ "/dvd" ++ "/" ++ disc) :: Event.log :: evs) (Except.ok ()))
    (congrArg List.flatten (List.map_congr_left ?_))
  intro file _
  rw [attempt_char]

/-- C9: a failure inside a single file's conversion attempt is caught (the
attempt contributes its partial trace plus two logs) and the scan always
continues through every sibling file, returning normally; and the watcher's
`loop_step` likewise returns normally whenever the directory listings
themselves succeed, so per-file transcode failures never crash the loop. -/
theorem c9_per_file_failures_isolated (env : Env) (t : TranscodeThread)
    (disc : String) (reg : List String) (files : List String)
    (h : env.listdir (t.wip_root ++ "/dvd" ++ "/" ++ disc) = Except.ok files) :
    TranscodeThread.transcode_disc env t disc reg
      = ⟨reg, Event.listdir (t.wip_root ++ "/dvd" ++ "/" ++ disc) :: Event.log ::
          (files.map (fun file =>
            (TranscodeThread.transcode_file env t
                (t.wip_root ++ "/dvd" ++ "/" ++ disc ++ "/" ++ file)
                (t.out_root ++ "/" ++ disc) reg).events ++
            (match (TranscodeThread.transcode_file env t
                (t.wip_root ++ "/dvd" ++ "/" ++ disc ++ "/" ++ file)
                (t.out_root ++ "/" ++ disc) reg).res with
              | Except.ok _ => []
              | Except.error _ => [Event.log, Event.log]))).flatten,
        Except.ok ()⟩
    ∧ (∀ discs : List String, env.listdir (t.wip_root ++ "/dvd") = Except.ok discs →
        (∀ d ∈ discs, ∃ fs, env.listdir (t.wip_root ++ "/dvd" ++ "/" ++ d) = Except.ok fs) →
        (TranscodeThread.loop_step env t reg).res = Except.ok ()) := by
  refine ⟨transcode_disc_char env t disc reg files h, fun discs hd hall => ?_⟩
  have hstep : TranscodeThread.loop_step env t reg
      = Eff.bind (emit Event.log) (fun _ =>
          Eff.bind (os_listdir env (t.wip_root ++ "/dvd"))
            (fun discs' => forEach discs' (fun d =>
              Eff.bind (emit Event.log)
                (fun _ => TranscodeThread.transcode_disc env t d)))) reg := rfl
  rw [hstep,
    eff_bind_ok _ (show emit Event.log reg = ⟨reg, [Event.log], Except.ok ()⟩ from rfl),
    eff_bind_ok _ (show os_listdir env (t.wip_root ++ "/dvd") reg
      = ⟨reg, [Event.listdir (t.wip_root ++ "/dvd")], Except.ok discs⟩
      from by simp [os_listdir, hd]),
    forEach_congr_ok _ _ _ ?_]
  intro d hdm r
  obtain ⟨fs, hfs⟩ := hall d hdm
  rw [show (Eff.bind (emit Event.log) (fun _ => TranscodeThread.transcode_disc env t d)) r
      = ⟨(TranscodeThread.transcode_disc env t d r).reg,
          [Event.log] ++ (TranscodeThread.transcode_disc env t d r).events,
          (TranscodeThread.transcode_disc env t d r).res⟩
    from eff_bind_ok _ rfl, transcode_disc_char env t d r fs hfs]
  exact ⟨rfl, rfl⟩

/-- C9 witness: with one listable disc directory holding two zero-length
files (whose `getsize` probe succeeds and gates them out), the disc scan and
the watcher cycle both return normally. -/
theorem c9_witness :
    (TranscodeThread.transcode_disc envA watcherA "D" []).res = Except.ok ()
    ∧ (TranscodeThread.loop_step envA watcherA []).res = Except.ok () := by
  constructor
  · rw [(c9_per_file_failures_isolated envA watcherA "D" [] [] rfl).1]
  · exact (c9_per_file_failures_isolated envA watcherA "D" [] [] rfl).2 []
      rfl (fun d _ => ⟨[], rfl⟩)

/-! ## C2 — the "idempotent" cycle still mounts -/

/-- C2 counterexample: in an environment where every path exists (so the
output artifact for the disc's identity `A-B` is present), a full poll cycle
nevertheless performs a mount — its event trace contains the privileged
mount invocation, contradicting "performs no mount". -/
theorem c2_counterexample :
    Event.exec ["sudo", "mount", "/dev/sr0", "./mnt/dev/sr0"] true
      ∈ (RipThread.loop_step envA threadA []).events
    ∧ envA.pathExists "./out/A-B" = true := by
  constructor
  · have h : (RipThread.loop_step envA threadA []).events
        = [Event.exec ["blkid", "/dev/sr0"] true, Event.log, Event.log,
           Event.makedirs "./mnt/dev/sr0",
           Event.exec ["sudo", "mount", "/dev/sr0", "./mnt/dev/sr0"] true,
           Event.existsCheck "./mnt/dev/sr0/VIDEO_TS"] := rfl
    rw [h]
    simp
  · rfl

/-- C2 (amended): for a disc whose probe reports a label and UUID — whether
or not an output artifact for that identity is present — the poll cycle
probes, creates the mount-point directory and invokes the privileged mount
(registering it on success), checks for the `VIDEO_TS` marker, and then
aborts with `AttributeError` inside the rip routine: it performs no external
rip invocation and no eject, but the absence of those effects is due to the
raised error, not to the output-exists skip, which is never reached (no
exists-check on any output path appears in the trace). -/
theorem c2_idempotent_cycle_still_mounts (env : Env) (t : RipThread) (reg : List String)
    (dct : List (List Char × List (List Char × List Char)))
    (params : List (List Char × List Char)) (l u : List Char)
    (hex : env.execOk ["blkid", t.drive] = true)
    (hs : String.mk (pyStrip (env.execOut ["blkid", t.drive]).data) ≠ "")
    (hpd : parse_blkid (String.mk (pyStrip (env.execOut ["blkid", t.drive]).data))
      = Except.ok dct)
    (hparams : dictGet dct t.drive.data = Except.ok params)
    (hL : dictGet params "LABEL".data = Except.ok l)
    (hU : dictGet params "UUID".data = Except.ok u) :
    RipThread.loop_step env t reg =
      ⟨reg ++ (if env.execOk ["sudo", "mount", t.drive, "./mnt" ++ t.drive] = true
          then ["./mnt" ++ t.drive] else []),
        [Event.exec ["blkid", t.drive] true, Event.log, Event.log,
          Event.makedirs ("./mnt" ++ t.drive),
          Event.exec ["sudo", "mount", t.drive, "./mnt" ++ t.drive] true]
        ++ (if env.execOk ["sudo", "mount", t.drive, "./mnt" ++ t.drive] = true
            then [] else [Event.log])
        ++ [Event.existsCheck ("./mnt" ++ t.drive ++ "/VIDEO_TS")],
        Except.error PyErr.attributeError⟩ := by
  have hdvd : ∀ r, RipThread.rip_dvd env t params r = ⟨r, [], Except.error PyErr.attributeError⟩ :=
    fun r => rip_dvd_attr env t params r l u hL hU
  have hdata : ∀ r, RipThread.rip_data_disc env t params r
      = ⟨r, [], Except.error PyErr.attributeError⟩ :=
    fun r => rip_data_disc_attr env t params r l u hL hU
  by_cases hm : env.execOk ["sudo", "mount", t.drive, "./mnt" ++ t.drive] = true <;>
    cases hv : env.pathExists ("./mnt" ++ t.drive ++ "/VIDEO_TS") <;>
      simp [RipThread.loop_step, Eff.bind, Eff.pure, emit, liftE, tryCatchAll,
        execute_capture, os_path_exists, mount, getReg, setReg,
        hex, hs, hpd, hparams, hdvd, hdata, hm, hv]

/-- C2 witness: concrete instantiation — block probe reports
`LABEL="A" UUID="B"`, every path (including the output artifact) exists, the
mount succeeds; the cycle mounts, checks `VIDEO_TS`, and dies with
`AttributeError` before any rip, skip or eject. -/
theorem c2_witness :
    RipThread.loop_step envA threadA [] =
      ⟨["./mnt/dev/sr0"],
        [Event.exec ["blkid", "/dev/sr0"] true, Event.log, Event.log,
          Event.makedirs "./mnt/dev/sr0",
          Event.exec ["sudo", "mount", "/dev/sr0", "./mnt/dev/sr0"] true,
          Event.existsCheck "./mnt/dev/sr0/VIDEO_TS"],
        Except.error PyErr.attributeError⟩ := by
  have h := c2_idempotent_cycle_still_mounts envA threadA []
    [("/dev/sr0".data, [("LABEL".data, "A".data), ("UUID".data, "B".data)])]
    [("LABEL".data, "A".data), ("UUID".data, "B".data)] "A".data "B".data
    rfl (by decide) rfl rfl rfl rfl
  simpa using h

/-! ## C8 — totality of the fingerprint function -/

theorem cdparanoia_line_ok (acc : List Int) (line : List Char)
    (h : (pySplitWs line).length = 8 →
      (pyIntCore ((pySplitWs line).getD 1 [])).isSome = true) :
    ∃ L, cdparanoia_line acc line = Except.ok L := by
  unfold cdparanoia_line
  split
  case _ a s1 b c d e f g heq =>
    have h8 : (pySplitWs line).length = 8 := by rw [heq]; rfl
    have hsome := h h8
    rw [heq] at hsome
    simp only [List.getD_cons_succ, List.getD_cons_zero] at hsome
    obtain ⟨n, hn⟩ := Option.isSome_iff_exists.mp hsome
    exact ⟨acc ++ [n], by simp [pyInt, hn, Except.map]⟩
  case _ => exact ⟨acc, rfl⟩

/-- C8 counterexample: the function is not total — a body row with exactly 8
fields whose field index 1 is not numeric makes `int()` raise `ValueError`,
so this input yields an exception, not an integer. -/
theorem c8_counterexample :
    cdparanoia_hash "h1\nh2\nh3\nh4\nh5\nh6\na b c d e f g h\nf1\nf2"
      = Except.error PyErr.valueError := rfl

/-- C8 (amended): the fingerprint strips the 6 header and 2 footer lines,
keeps field index 1 of each remaining row with exactly 8 whitespace-separated
fields, discards rows with any other field count, and returns an integer for
every input whose retained 8-field rows carry an integer literal at field
index 1; a non-integer field there instead raises `ValueError`. -/
theorem c8_total_unless_bad_field (s : String)
    (h : ∀ line ∈ pySlice6m2 (pySplit ['\n'] s.data),
      (pySplitWs line).length = 8 →
      (pyIntCore ((pySplitWs line).getD 1 [])).isSome = true) :
    ∃ n : Int, cdparanoia_hash s = Except.ok n := by
  have key : ∀ (lines : List (List Char)),
      (∀ line ∈ lines, (pySplitWs line).length = 8 →
        (pyIntCore ((pySplitWs line).getD 1 [])).isSome = true) →
      ∀ acc : List Int, ∃ L, List.foldlM cdparanoia_line acc lines = Except.ok L := by
    intro lines
    induction lines with
    | nil => exact fun _ acc => ⟨acc, rfl⟩
    | cons ln tl ih =>
      intro hall acc
      obtain ⟨L1, hL1⟩ := cdparanoia_line_ok acc ln (hall ln (by simp))
      obtain ⟨L2, hL2⟩ := ih (fun l hl => hall l (List.mem_cons_of_mem _ hl)) L1
      exact ⟨L2, by rw [List.foldlM_cons, hL1]; simpa using hL2⟩
  obtain ⟨L, hL⟩ := key (pySlice6m2 (pySplit ['\n'] s.data)) h []
  exact ⟨pyHashTuple L, by
    unfold cdparanoia_hash cdparanoia_lengths
    rw [hL]
    rfl⟩

/-- C8 witness: a fully well-formed table (one 8-field row with numeric field
index 1) does produce an integer. -/
theorem c8_witness :
    ∃ n : Int,
      cdparanoia_hash "a1\na2\na3\na4\na5\na6\n 2. 7512 a b c d e f\nz1\nz2"
        = Except.ok n :=
  c8_total_unless_bad_field "a1\na2\na3\na4\na5\na6\n 2. 7512 a b c d e f\nz1\nz2"
    (by decide)

/-! ## C6 — split lemmas -/

theorem pySplitA_fuel (sep : List Char) (hsep : sep ≠ []) :
    ∀ (f1 f2 : Nat) (l : List Char), l.length ≤ f1 → l.length ≤ f2 →
      pySplitA sep f1 l = pySplitA sep f2 l := by
  intro f1
  induction f1 with
  | zero =>
    intro f2 l h1 _
    have hl : l = [] := List.length_eq_zero.mp (Nat.le_zero.mp h1)
    subst hl
    cases f2 <;> rfl
  | succ f1 ih =>
    intro f2 l h1 h2
    cases l with
    | nil => cases f2 <;> rfl
    | cons c tl =>
      cases f2 with
      | zero => simp at h2
      | succ f2 =>
        have hslen : 0 < sep.length := List.length_pos.mpr hsep
        simp only [pySplitA]
        by_cases hp : sep.isPrefixOf (c :: tl) = true
        · simp only [hp, if_true]
          congr 1
          apply ih
          · simp only [List.length_drop, List.length_cons]
            simp only [List.length_cons] at h1
            omega
          · simp only [List.length_drop, List.length_cons]
            simp only [List.length_cons] at h2
            omega
        · simp only [hp, if_false, Bool.false_eq_true]
          rw [ih f2 tl (by simp only [List.length_cons] at h1; omega)
            (by simp only [List.length_cons] at h2; omega)]

theorem pySplitA_single_none (c : Char) :
    ∀ (l : List Char) (f : Nat), c ∉ l → l.length ≤ f → pySplitA [c] f l = [l] := by
  intro l
  induction l with
  | nil => intro f _ _; cases f <;> rfl
  | cons x tl ih =>
    intro f hm hf
    cases f with
    | zero => simp at hf
    | succ f =>
      have hcx : c ≠ x := fun h => hm (h ▸ List.mem_cons_self x tl)
      have hnp : ¬([c].isPrefixOf (x :: tl) = true) := by
        simp [List.isPrefixOf]
        exact fun h => hcx h
      simp only [pySplitA, hnp, if_false, Bool.false_eq_true]
      rw [ih f (fun h => hm (List.mem_cons_of_mem _ h))
        (by simp only [List.length_cons] at hf; omega)]

theorem pySplitA_single_app (c : Char) (rest : List Char) :
    ∀ (a : List Char) (f : Nat), c ∉ a → (a ++ c :: rest).length ≤ f →
      pySplitA [c] f (a ++ c :: rest) = a :: pySplitA [c] (f - (a.length + 1)) rest := by
  intro a
  induction a with
  | nil =>
    intro f _ hf
    cases f with
    | zero => simp at hf
    | succ f =>
      have hp : ([c].isPrefixOf (c :: rest)) = true := by simp [List.isPrefixOf]
      simp [pySplitA, hp]
  | cons x a' ih =>
    intro f hm hf
    cases f with
    | zero => simp at hf
    | succ f =>
      have hcx : c ≠ x := fun h => hm (h ▸ List.mem_cons_self x _)
      have hnp : ¬([c].isPrefixOf (x :: (a' ++ c :: rest)) = true) := by
        simp [List.isPrefixOf]
        exact fun h => hcx h
      simp only [List.cons_append, pySplitA, List.append_eq, hnp, if_false,
        Bool.false_eq_true]
      rw [ih f (fun h => hm (List.mem_cons_of_mem _ h))
        (by simp only [List.length_append, List.length_cons] at hf ⊢; omega)]
      simp only [List.length_cons]
      congr 2
      omega

theorem pySplit_single_none (c : Char) (l : List Char) (hm : c ∉ l) :
    pySplit [c] l = [l] :=
  pySplitA_single_none c l l.length hm (Nat.le_refl _)

theorem pySplit_single_app (c : Char) (a rest : List Char) (ha : c ∉ a) :
    pySplit [c] (a ++ c :: rest) = a :: pySplit [c] rest := by
  unfold pySplit
  rw [pySplitA_single_app c rest a _ ha (Nat.le_refl _)]
  congr 1
  have hlen : (a ++ c :: rest).length - (a.length + 1) = rest.length := by
    simp only [List.length_append, List.length_cons]
    omega
  rw [hlen]

theorem pySplitA_cs_none :
    ∀ (a : List Char) (f : Nat), hasCS a = false → a.length ≤ f →
      pySplitA [':', ' '] f a = [a] := by
  intro a
  induction a with
  | nil => intro f _ _; cases f <;> rfl
  | cons x a' ih =>
    intro f h hf
    cases f with
    | zero => simp at hf
    | succ f =>
      have hnp : ¬([':', ' '].isPrefixOf (x :: a') = true) := by
        cases a' with
        | nil => simp [List.isPrefixOf]
        | cons y a'' =>
          simp only [hasCS, Bool.or_eq_false_iff, Bool.and_eq_false_iff,
            decide_eq_false_iff_not] at h
          simp [List.isPrefixOf]
          intro h1 h2
          rcases h.1 with hx | hy
          · exact absurd h1.symm hx
          · exact absurd h2.symm hy
      have h' : hasCS a' = false := by
        cases a' with
        | nil => rfl
        | cons y a'' =>
          simp only [hasCS, Bool.or_eq_false_iff] at h
          exact h.2
      simp only [pySplitA, hnp, if_false, Bool.false_eq_true]
      rw [ih f h' (by simp only [List.length_cons] at hf; omega)]

theorem pySplitA_cs_app (rest : List Char) :
    ∀ (a : List Char) (f : Nat), hasCS a = false → (a ++ ':' :: ' ' :: rest).length ≤ f →
      pySplitA [':', ' '] f (a ++ ':' :: ' ' :: rest)
        = a :: pySplitA [':', ' '] (f - (a.length + 1)) rest := by
  intro a
  induction a with
  | nil =>
    intro f _ hf
    cases f with
    | zero => simp at hf
    | succ f =>
      have hp : ([':', ' '].isPrefixOf (':' :: ' ' :: rest)) = true := by
        simp [List.isPrefixOf]
      simp [pySplitA, hp]
  | cons x a' ih =>
    intro f h hf
    cases f with
    | zero => simp at hf
    | succ f =>
      have hnp : ¬([':', ' '].isPrefixOf (x :: (a' ++ ':' :: ' ' :: rest)) = true) := by
        cases a' with
        | nil => simp [List.isPrefixOf]
        | cons y a'' =>
          simp only [hasCS, Bool.or_eq_false_iff, Bool.and_eq_false_iff,
            decide_eq_false_iff_not] at h
          simp [List.isPrefixOf]
          intro h1 h2
          rcases h.1 with hx | hy
          · exact absurd h1.symm hx
          · exact absurd h2.symm hy
      have h' : hasCS a' = false := by
        cases a' with
        | nil => rfl
        | cons y a'' =>
          simp only [hasCS, Bool.or_eq_false_iff] at h
          exact h.2
      simp only [List.cons_append, pySplitA, List.append_eq, hnp, if_false,
        Bool.false_eq_true]
      rw [ih f h' (by simp only [List.length_append, List.length_cons] at hf ⊢; omega)]
      simp only [List.length_cons]
      congr 2
      omega

/-- Splitting a rendered `device: params` line on `": "` when neither side
contains the separator: exactly two parts. -/
theorem pySplit_cs_line (d params : List Char) (hd : hasCS d = false)
    (hp : hasCS params = false) :
    pySplit [':', ' '] (d ++ ':' :: ' ' :: params) = [d, params] := by
  unfold pySplit
  rw [pySplitA_cs_app params d _ hd (Nat.le_refl _),
    pySplitA_cs_none params _ hp
      (by simp only [List.length_append, List.length_cons]; omega)]

/-! ## C6 — colon-space occurrence lemmas -/

theorem hasCS_append (x y : List Char) :
    hasCS (x ++ y)
      = (hasCS x || (decide (x.getLast? = some ':') && decide (y.head? = some ' '))
          || hasCS y) := by
  induction x with
  | nil => simp [hasCS]
  | cons a x' ih =>
    cases x' with
    | nil =>
      cases y with
      | nil => simp [hasCS]
      | cons b y' => simp [hasCS]
    | cons a' x'' =>
      have hstep : hasCS ((a :: a' :: x'') ++ y)
          = ((decide (a = ':') && decide (a' = ' ')) || hasCS ((a' :: x'') ++ y)) := rfl
      rw [hstep, ih]
      simp [hasCS, List.getLast?_cons_cons, Bool.or_assoc]

theorem mem_of_getLast?_eq {l : List Char} {x : Char} (h : l.getLast? = some x) :
    x ∈ l := by
  have h2 := List.dropLast_append_getLast? x (Option.mem_def.mpr h)
  rw [← h2]
  simp

theorem hasCS_of_no_colon (l : List Char) (h : ∀ c ∈ l, c ≠ ':') : hasCS l = false := by
  induction l with
  | nil => rfl
  | cons a tl ih =>
    cases tl with
    | nil => rfl
    | cons b tl' =>
      simp only [hasCS, Bool.or_eq_false_iff]
      exact ⟨by simp [h a (List.mem_cons_self a _)],
        ih (fun c hc => h c (List.mem_cons_of_mem _ hc))⟩

theorem isWordChar_ne_colon {c : Char} (h : isWordChar c = true) : c ≠ ':' := by
  rintro rfl
  exact absurd h (by decide)

theorem hasCS_renderPair (k v : List Char) (hk : ∀ c ∈ k, isWordChar c = true)
    (hv : hasCS v = false) : hasCS (renderPair (k, v)) = false := by
  have h1 : hasCS (v ++ ['\"']) = false := by
    rw [hasCS_append, hv]
    simp [hasCS]
  have h2 : hasCS ('=' :: '\"' :: (v ++ ['\"'])) = false := by
    rw [show ('=' :: '\"' :: (v ++ ['\"'])) = ['=', '\"'] ++ (v ++ ['\"']) from rfl,
      hasCS_append, h1]
    simp [hasCS]
  have hb : k.getLast? ≠ some ':' :=
    fun hq => isWordChar_ne_colon (hk ':' (mem_of_getLast?_eq hq)) rfl
  rw [show renderPair (k, v) = k ++ '=' :: '\"' :: (v ++ ['\"']) from rfl]
  rw [hasCS_append, hasCS_of_no_colon k (fun c hc => isWordChar_ne_colon (hk c hc)), h2]
  simp [hb]

theorem getLast?_renderPair (k v : List Char) :
    (renderPair (k, v)).getLast? = some '\"' := by
  rw [show renderPair (k, v) = k ++ '=' :: '\"' :: (v ++ ['\"']) from rfl]
  rw [show k ++ '=' :: '\"' :: (v ++ ['\"']) = (k ++ '=' :: '\"' :: v) ++ ['\"'] by simp]
  exact List.getLast?_concat _

theorem hasCS_renderParams (ps : List (List Char × List Char))
    (h : ∀ p ∈ ps, (∀ c ∈ p.1, isWordChar c = true) ∧ hasCS p.2 = false) :
    hasCS (renderParams ps) = false := by
  induction ps with
  | nil => rfl
  | cons kv rest ih =>
    cases rest with
    | nil =>
      obtain ⟨hk, hv⟩ := h kv (List.mem_cons_self kv _)
      exact hasCS_renderPair kv.1 kv.2 hk hv
    | cons r rs =>
      obtain ⟨hk, hv⟩ := h kv (List.mem_cons_self kv _)
      have hrest := ih (fun p hp => h p (List.mem_cons_of_mem _ hp))
      have h3 : hasCS (' ' :: renderParams (r :: rs)) = false := by
        rw [show (' ' :: renderParams (r :: rs)) = [' '] ++ renderParams (r :: rs) from rfl,
          hasCS_append, hrest]
        simp [hasCS]
      rw [show renderParams (kv :: r :: rs)
          = renderPair kv ++ ' ' :: renderParams (r :: rs) from rfl,
        hasCS_append, hasCS_renderPair kv.1 kv.2 hk hv, h3,
        show renderPair kv = renderPair (kv.1, kv.2) from rfl,
        getLast?_renderPair]
      simp

/-! ## C6 — newline-absence lemmas -/

theorem nl_not_mem_renderParams (ps : List (List Char × List Char))
    (h : ∀ p ∈ ps, wfKey p.1 ∧ wfValue p.2) : '\n' ∉ renderParams ps := by
  induction ps with
  | nil => simp [renderParams]
  | cons kv rest ih =>
    obtain ⟨⟨_, hk⟩, _, hv, _⟩ := h kv (List.mem_cons_self kv _)
    have hknl : '\n' ∉ kv.1 := fun hm => absurd (hk '\n' hm) (by decide)
    have hvnl : '\n' ∉ kv.2 := fun hm => ((hv '\n' hm).2 rfl)
    have hpair : '\n' ∉ renderPair kv := by
      rw [show renderPair kv = kv.1 ++ '=' :: '\"' :: (kv.2 ++ ['\"']) from rfl]
      simp only [List.mem_append, List.mem_cons, List.mem_singleton]
      rintro (hm | hm | hm | hm | hm)
      · exact hknl hm
      · exact absurd hm (by decide)
      · exact absurd hm (by decide)
      · exact hvnl hm
      · exact absurd hm (by decide)
    cases rest with
    | nil => exact hpair
    | cons r rs =>
      show '\n' ∉ renderPair kv ++ ' ' :: renderParams (r :: rs)
      simp only [List.mem_append, List.mem_cons]
      rintro (hm | hm | hm)
      · exact hpair hm
      · exact absurd hm (by decide)
      · exact ih (fun p hp => h p (List.mem_cons_of_mem _ hp)) hm

theorem nl_not_mem_renderLine (e : List Char × List (List Char × List Char))
    (hd : wfDevice e.1) (hp : ∀ p ∈ e.2, wfKey p.1 ∧ wfValue p.2) :
    '\n' ∉ renderLine e := by
  rw [show renderLine e = e.1 ++ ':' :: ' ' :: renderParams e.2 from rfl]
  simp only [List.mem_append, List.mem_cons]
  rintro (hm | hm | hm | hm)
  · exact hd.2.1 hm
  · exact absurd hm (by decide)
  · exact absurd hm (by decide)
  · exact nl_not_mem_renderParams e.2 hp hm

theorem pySplit_nl_renderBlkid :
    ∀ es : List (List Char × List (List Char × List Char)), es ≠ [] →
      (∀ e ∈ es, '\n' ∉ renderLine e) →
      pySplit ['\n'] (renderBlkid es) = es.map renderLine := by
  intro es
  induction es with
  | nil => exact fun h => absurd rfl h
  | cons e rest ih =>
    intro _ hall
    cases rest with
    | nil =>
      rw [show renderBlkid [e] = renderLine e from rfl,
        pySplit_single_none '\n' _ (hall e (List.mem_cons_self e _))]
      rfl
    | cons r rs =>
      rw [show renderBlkid (e :: r :: rs) = renderLine e ++ '\n' :: renderBlkid (r :: rs)
          from rfl,
        pySplit_single_app '\n' _ _ (hall e (List.mem_cons_self e _)),
        ih (by simp) (fun x hx => hall x (List.mem_cons_of_mem _ hx))]
      rfl

/-! ## C6 — the finditer scanner on rendered parameter strings -/

theorem takeWhile_app_stop (p : Char → Bool) (l1 : List Char) (c : Char) (l2 : List Char)
    (h1 : ∀ x ∈ l1, p x = true) (h2 : p c = false) :
    (l1 ++ c :: l2).takeWhile p = l1 := by
  induction l1 with
  | nil => simp [List.takeWhile_cons, h2]
  | cons a tl ih =>
    simp [List.takeWhile_cons, h1 a (List.mem_cons_self a _),
      ih (fun x hx => h1 x (List.mem_cons_of_mem _ hx))]

/-- The scanner matches exactly the rendered `key="value"` chunk at the head
of the input and hands back everything after the closing quote. -/
theorem tryMatch_render (k v tail : List Char) (hk : k ≠ [])
    (hkw : ∀ c ∈ k, isWordChar c = true) (hv : v ≠ [])
    (hq : ∀ c ∈ v, c ≠ '\"') :
    tryMatch (k ++ '=' :: '\"' :: (v ++ '\"' :: tail)) = some (k, v, tail) := by
  have htw : (k ++ '=' :: '\"' :: (v ++ '\"' :: tail)).takeWhile isWordChar = k :=
    takeWhile_app_stop isWordChar k '=' _ hkw (by decide)
  have htv : (v ++ '\"' :: tail).takeWhile (fun c => !(c == '\"')) = v :=
    takeWhile_app_stop _ v '\"' tail
      (fun x hx => by simp [hq x hx]) (by simp)
  have hke : k.isEmpty = false := by
    cases k
    · exact absurd rfl hk
    · rfl
  have hve : v.isEmpty = false := by
    cases v
    · exact absurd rfl hv
    · rfl
  simp only [tryMatch, htw, htv, hke, hve, Bool.false_eq_true, if_false,
    List.drop_left]

/-- No match can start at a space. -/
theorem tryMatch_space (l : List Char) : tryMatch (' ' :: l) = none := by
  have h : isWordChar ' ' = false := by decide
  simp [tryMatch, List.takeWhile_cons, h]

theorem findIterAux_render (ps : List (List Char × List Char))
    (hps : ∀ p ∈ ps, wfKey p.1 ∧ wfValue p.2) :
    ∀ fuel : Nat, (renderParams ps).length ≤ fuel →
      findIterAux fuel (renderParams ps) = ps := by
  induction ps with
  | nil => intro fuel _; cases fuel <;> rfl
  | cons kv rest ih =>
    intro fuel hf
    obtain ⟨⟨hk, hkw⟩, hv, hvq, _⟩ := hps kv (List.mem_cons_self kv _)
    obtain ⟨k0, k', hkeq⟩ : ∃ k0 k', kv.1 = k0 :: k' := by
      cases hkk : kv.1 with
      | nil => exact absurd hkk hk
      | cons a b => exact ⟨a, b, rfl⟩
    cases rest with
    | nil =>
      have hr : renderParams [kv] = kv.1 ++ '=' :: '\"' :: (kv.2 ++ '\"' :: []) := rfl
      rw [hr] at hf ⊢
      rw [hkeq] at hf ⊢
      rw [List.cons_append] at hf ⊢
      cases fuel with
      | zero => simp at hf
      | succ f =>
        simp only [findIterAux]
        rw [← List.cons_append, ← hkeq,
          tryMatch_render kv.1 kv.2 [] hk hkw hv (fun c hc => (hvq c hc).1)]
        simp [findIterAux]
    | cons r rs =>
      have hr : renderParams (kv :: r :: rs)
          = kv.1 ++ '=' :: '\"' :: (kv.2 ++ '\"' :: (' ' :: renderParams (r :: rs))) := by
        have hr0 : renderParams (kv :: r :: rs)
            = renderPair kv ++ ' ' :: renderParams (r :: rs) := rfl
        rw [hr0, show renderPair kv = kv.1 ++ '=' :: '\"' :: (kv.2 ++ ['\"']) from rfl]
        simp [List.append_assoc]
      rw [hr] at hf ⊢
      rw [hkeq] at hf ⊢
      rw [List.cons_append] at hf ⊢
      cases fuel with
      | zero => simp at hf
      | succ f =>
        simp only [findIterAux]
        rw [← List.cons_append, ← hkeq,
          tryMatch_render kv.1 kv.2 (' ' :: renderParams (r :: rs)) hk hkw hv
            (fun c hc => (hvq c hc).1)]
        have hflen : 1 + (renderParams (r :: rs)).length ≤ f := by
          simp only [List.length_cons, List.length_append] at hf
          omega
        cases f with
        | zero => omega
        | succ f' =>
          simp only [findIterAux, tryMatch_space]
          rw [ih (fun p hp => hps p (List.mem_cons_of_mem _ hp)) f' (by omega)]

/-- `re.finditer` of `(\w+)="([^"]+)"` over a rendered parameter string
recovers exactly the rendered pairs, in order. -/
theorem findIter_render (ps : List (List Char × List Char))
    (hps : ∀ p ∈ ps, wfKey p.1 ∧ wfValue p.2) :
    findIter (renderParams ps) = ps :=
  findIterAux_render ps hps _ (Nat.le_refl _)

/-! ## C6 — dict accumulation -/

theorem dictInsert_not_mem {β : Type} (d : List (List Char × β)) (k : List Char) (v : β)
    (h : k ∉ d.map Prod.fst) : dictInsert d k v = d ++ [(k, v)] := by
  simp [dictInsert, h]

theorem foldl_dictInsert_append {β : Type} (ps : List (List Char × β)) :
    ∀ acc : List (List Char × β), (acc.map Prod.fst ++ ps.map Prod.fst).Nodup →
      ps.foldl (fun d kv => dictInsert d kv.1 kv.2) acc = acc ++ ps := by
  induction ps with
  | nil => intro acc _; simp
  | cons kv rest ih =>
    intro acc hnd
    have hk : kv.1 ∉ acc.map Prod.fst := by
      rw [List.nodup_append] at hnd
      exact fun hm => hnd.2.2 hm
        (List.mem_map_of_mem Prod.fst (List.mem_cons_self kv rest))
    have hstep : List.foldl (fun d kv => dictInsert d kv.1 kv.2) acc (kv :: rest)
        = List.foldl (fun d kv => dictInsert d kv.1 kv.2) (acc ++ [(kv.1, kv.2)]) rest := by
      rw [List.foldl_cons, dictInsert_not_mem acc kv.1 kv.2 hk]
    rw [hstep, ih (acc ++ [(kv.1, kv.2)]) (by
      simp only [List.map_append, List.map_cons, List.map_nil, List.append_assoc,
        List.singleton_append] at hnd ⊢
      simpa using hnd)]
    simp

/-- `parse_blkid_params` on a rendered parameter string returns exactly the
rendered mapping. -/
theorem parse_blkid_params_render (ps : List (List Char × List Char))
    (hps : ∀ p ∈ ps, wfKey p.1 ∧ wfValue p.2) (hnd : (ps.map Prod.fst).Nodup) :
    parse_blkid_params (renderParams ps) = ps := by
  rw [parse_blkid_params, findIter_render ps hps,
    foldl_dictInsert_append ps [] (by simpa using hnd)]
  rfl

/-! ## C6 — line level and whole-output round trip -/

theorem parse_blkid_line_render (d : List (List Char × List (List Char × List Char)))
    (e : List Char × List (List Char × List Char)) (hd : wfDevice e.1) (hp : wfPairs e.2) :
    parse_blkid_line d (renderLine e) = Except.ok (dictInsert d e.1 e.2) := by
  have hline : renderLine e = e.1 ++ ':' :: ' ' :: renderParams e.2 := rfl
  have hne : ¬(renderLine e = []) := by
    rw [hline]
    intro hcontr
    rcases List.append_eq_nil.mp hcontr with ⟨h1, _⟩
    exact hd.1 h1
  have hsplit : pySplit [':', ' '] (renderLine e) = [e.1, renderParams e.2] := by
    rw [hline]
    exact pySplit_cs_line e.1 (renderParams e.2) hd.2.2
      (hasCS_renderParams e.2 (fun p hpm =>
        ⟨(hp.1 p hpm).1.2, (hp.1 p hpm).2.2.2⟩))
  have hpp : parse_blkid_params (renderParams e.2) = e.2 :=
    parse_blkid_params_render e.2 hp.1 hp.2
  simp [parse_blkid_line, hne, hsplit, listGet, hpp]
  rfl

theorem parse_blkid_lines (es : List (List Char × List (List Char × List Char)))
    (hwf : ∀ e ∈ es, wfDevice e.1 ∧ wfPairs e.2) :
    ∀ acc, (acc.map Prod.fst ++ es.map Prod.fst).Nodup →
      List.foldlM parse_blkid_line acc (es.map renderLine) = Except.ok (acc ++ es) := by
  induction es with
  | nil =>
    intro acc _
    simp only [List.map_nil, List.foldlM_nil, List.append_nil]
    rfl
  | cons e rest ih =>
    intro acc hnd
    obtain ⟨hd, hp⟩ := hwf e (List.mem_cons_self e _)
    have hk : e.1 ∉ acc.map Prod.fst := by
      rw [List.nodup_append] at hnd
      exact fun hm => hnd.2.2 hm
        (List.mem_map_of_mem Prod.fst (List.mem_cons_self e rest))
    have hrec := ih (fun x hx => hwf x (List.mem_cons_of_mem _ hx))
      (acc ++ [(e.1, e.2)]) (by
        simp only [List.map_append, List.map_cons, List.map_nil, List.append_assoc,
          List.singleton_append] at hnd ⊢
        simpa using hnd)
    rw [List.map_cons, List.foldlM_cons, parse_blkid_line_render acc e hd hp,
      dictInsert_not_mem acc e.1 e.2 hk]
    have hbind : ((Except.ok (acc ++ [(e.1, e.2)]) : Except PyErr _) >>= fun acc' =>
        List.foldlM parse_blkid_line acc' (rest.map renderLine))
        = List.foldlM parse_blkid_line (acc ++ [(e.1, e.2)]) (rest.map renderLine) := rfl
    rw [hbind, hrec]
    simp

/-- C6 (amended): for every block-probe output consisting of lines of the
form `device: KEY="value" KEY2="value2"` — keys nonempty `\w+` words, values
nonempty, double-quote- and newline-free and additionally not containing the
two-character sequence colon-space (which `line.split(": ")` would otherwise
truncate at), devices nonempty, newline- and colon-space-free, with devices
and per-line keys distinct — `parse_blkid` returns the mapping from each
device to its key-to-value map. -/
theorem c6_parse_blkid_roundtrip (es : List (List Char × List (List Char × List Char)))
    (h : wfEntries es) :
    parse_blkid (String.mk (renderBlkid es)) = Except.ok es := by
  cases es with
  | nil => rfl
  | cons e rest =>
    have hlines := pySplit_nl_renderBlkid (e :: rest) (by simp)
      (fun x hx => nl_not_mem_renderLine x (h.1 x hx).1 (h.1 x hx).2.1)
    have hfold := parse_blkid_lines (e :: rest) h.1 [] (by simpa using h.2)
    rw [parse_blkid,
      show (String.mk (renderBlkid (e :: rest))).data = renderBlkid (e :: rest) from rfl,
      hlines, hfold]
    simp

/-- C6 counterexample: the input `/dev/sr0: LABEL="A: B"` is of the claimed
form (the value contains a space and no embedded quote), yet parsing maps the
device to the empty dict, not to `{LABEL: "A: B"}` — `line.split(": ")` cuts
the line at the colon-space inside the value, leaving `LABEL="A` with no
closing quote, which the regex then cannot match. -/
theorem c6_counterexample :
    parse_blkid "/dev/sr0: LABEL=\"A: B\"" = Except.ok [("/dev/sr0".data, [])]
    ∧ ([] : List (List Char × List Char)) ≠ [("LABEL".data, "A: B".data)] :=
  ⟨rfl, by decide⟩

/-- C6 witness: the claim's round-trip example, obtained by instantiating the
amended theorem — `/dev/sr0: LABEL="MY_DVD" UUID="1234-5678"` parses to
exactly `{/dev/sr0: {LABEL: MY_DVD, UUID: 1234-5678}}`. -/
theorem c6_witness :
    parse_blkid "/dev/sr0: LABEL=\"MY_DVD\" UUID=\"1234-5678\"" = Except.ok entriesA
    ∧ String.mk (renderBlkid entriesA)
      = "/dev/sr0: LABEL=\"MY_DVD\" UUID=\"1234-5678\"" := by
  constructor
  · have h := c6_parse_blkid_roundtrip entriesA (by decide)
    rwa [show String.mk (renderBlkid entriesA)
        = "/dev/sr0: LABEL=\"MY_DVD\" UUID=\"1234-5678\"" from rfl] at h
  · rfl

end Rippa
